import Mathlib

/-!
Shallow embedding of the expense ledger query & category registry engine of
`src/main.py` (a Telegram budget bot backed by a Google Sheet), together with
theorems settling the specification claims about it.

Modelling conventions:
* A sheet snapshot (`sheet.get_all_values()`) is a `List (List String)`;
  a fetch that raises is modelled as `none` at the call boundary.
* The category column (`sheet.col_values(5)`) is a `List String`, blank cells
  included in position (as gspread returns them, up to the last non-empty one).
* Python `float` prices are modelled as exact rationals `ℚ`; `float(s)` is
  modelled for sign/digits/decimal-point forms (exponent, `inf`/`nan` and
  underscore forms are outside the data domain considered here).
* Python string methods `str.split(sep)`, `str.strip()`, `str.lower()` are
  modelled character-wise (ASCII case folding, standard whitespace).
* `datetime.strptime(s, "%Y-%m-%d").date()` is modelled by `parseDate`:
  a 4-digit year, 1-2 digit month and day, calendar-validated.
* Registry mutations return the 1-based cell row they would write, plus the
  value written, instead of performing the side effect.
-/

namespace Budget

/-- Model of Python `s.split(sep)` for a single-character separator. -/
def splitOnChar (sep : Char) (s : String) : List String :=
  (s.data.splitOn sep).map (fun l => String.mk l)

/-- Model of Python `s.strip()`: drop whitespace from both ends. -/
def trimStr (s : String) : String :=
  String.mk (((s.data.dropWhile Char.isWhitespace).reverse.dropWhile Char.isWhitespace).reverse)

/-- Model of Python `s.lower()` (ASCII case folding). -/
def lowerStr (s : String) : String :=
  String.mk (s.data.map Char.toLower)

/-- Numeric value of a list of decimal digit characters. -/
def digitsVal (l : List Char) : Nat :=
  l.foldl (fun a c => a * 10 + (c.toNat - 48)) 0

/-- True when the list is nonempty and all characters are decimal digits. -/
def allDigits (l : List Char) : Bool :=
  decide (l ≠ []) && l.all Char.isDigit

/-- A calendar date, as produced by `datetime.date`. -/
structure Date where
  year : Nat
  month : Nat
  day : Nat
deriving DecidableEq

/-- Gregorian leap-year test, as in `datetime`. -/
def isLeap (y : Nat) : Bool :=
  decide (y % 4 = 0) && (decide (y % 100 ≠ 0) || decide (y % 400 = 0))

/-- Number of days in a month, as validated by `datetime.date`. -/
def daysInMonth (y m : Nat) : Nat :=
  if m = 2 then (if isLeap y then 29 else 28)
  else if m = 4 ∨ m = 6 ∨ m = 9 ∨ m = 11 then 30
  else 31

/-- Model of `datetime.datetime.strptime(s, "%Y-%m-%d").date()`: exactly
three dash-separated components, a 4-digit year, a 1-2 digit month in 1..12,
a 1-2 digit day validated against the month length; anything else raises
`ValueError`, modelled as `none`. -/
def parseDate (s : String) : Option Date :=
  match s.data.splitOn '-' with
  | [ys, ms, ds] =>
    if allDigits ys ∧ allDigits ms ∧ allDigits ds then
      let y := digitsVal ys
      let m := digitsVal ms
      let d := digitsVal ds
      if ys.length = 4 ∧ ms.length ≤ 2 ∧ ds.length ≤ 2 ∧
          1 ≤ y ∧ 1 ≤ m ∧ m ≤ 12 ∧ 1 ≤ d ∧ d ≤ daysInMonth y m then
        some ⟨y, m, d⟩
      else none
    else none
  | _ => none

/-- Model of Python `float(s)` on an already-stripped string, restricted to
sign/digits/decimal-point forms: an optional `+`/`-` sign, then digits with at
most one `.`, at least one digit in total. The value is exact (`ℚ`). -/
def parsePrice (s : String) : Option ℚ :=
  match s.data with
  | [] => none
  | c :: cs =>
    let neg := c = '-'
    let body := if c = '-' ∨ c = '+' then cs else c :: cs
    match body.splitOn '.' with
    | [a] =>
      if allDigits a then
        let v : ℚ := mkRat (digitsVal a) 1
        some (if neg then -v else v)
      else none
    | [a, b] =>
      if (a.all Char.isDigit ∧ b.all Char.isDigit ∧ (a ≠ [] ∨ b ≠ [])) then
        let v : ℚ := mkRat (digitsVal (a ++ b)) (10 ^ b.length)
        some (if neg then -v else v)
      else none
    | _ => none

/-- Rata-die day number of a date (days since 0000-12-31 in the proleptic
Gregorian calendar), used to model `datetime.date` ordering, subtraction and
`weekday()`. -/
def Date.toRD (d : Date) : Int :=
  let py := d.year - 1
  let before :=
    [0, 31, 59, 90, 120, 151, 181, 212, 243, 273, 304, 334].getD (d.month - 1) 0 +
      (if 2 < d.month ∧ isLeap d.year then 1 else 0)
  ((365 * py + py / 4 - py / 100 + py / 400 + before + d.day : Nat) : Int)

/-- Model of Python `date.weekday()`: Monday is 0. 0001-01-01 (rata die 1) is
a Monday. -/
def weekdayI (d : Date) : Int :=
  (d.toRD - 1) % 7

/-- A parsed expense record, as built per row inside `get_spending_summary`. -/
structure Record where
  name : String
  price : ℚ
  category : String
  date : Date
deriving DecidableEq

/-- Model of the per-row parsing step of `get_spending_summary`
(src/main.py lines 95-103): rows with fewer than 5 fields are skipped, the
date/price/item/category fields are stripped, and a `ValueError` from
`strptime` or `float` skips the row. -/
def parseRow (row : List String) : Option Record :=
  if row.length < 5 then none
  else
    match parseDate (trimStr (row.getD 0 "")), parsePrice (trimStr (row.getD 3 "")) with
    | some d, some p => some ⟨trimStr (row.getD 2 ""), p, trimStr (row.getD 4 ""), d⟩
    | _, _ => none

/-- Model of the category filter of `get_spending_summary` (src/main.py line
105): with no category (or a falsy empty one) every row passes; otherwise the
lowered request must equal some stripped, lowered comma-token of the row's
category field. -/
def categoryOk (category : Option String) (rowCat : String) : Bool :=
  match category with
  | none => true
  | some c =>
    if c = "" then true
    else ((splitOnChar ',' rowCat).map (fun t => lowerStr (trimStr t))).contains (lowerStr c)

/-- Model of the period test of `get_spending_summary` (src/main.py lines
108-116): `day` is date equality with today, `week` is the interval from the
Monday of today's week through today, `month` compares year and month; any
other period string matches nothing. -/
def inPeriod (period : String) (today d : Date) : Bool :=
  if period = "day" then decide (d = today)
  else if period = "week" then
    decide (today.toRD - weekdayI today ≤ d.toRD) && decide (d.toRD ≤ today.toRD)
  else if period = "month" then
    decide (d.year = today.year) && decide (d.month = today.month)
  else false

/-- One loop iteration of `get_spending_summary` (src/main.py lines 94-120):
a raw row yields a record exactly when it parses, passes the category filter
and falls in the period. -/
def rowMatch (today : Date) (period : String) (category : Option String)
    (row : List String) : Option Record :=
  match parseRow row with
  | none => none
  | some r =>
    if categoryOk category r.category then
      if inPeriod period today r.date then some r else none
    else none

/-- The aggregation loop of `get_spending_summary` (src/main.py lines 91-120)
over the data rows: the running total and the list of matching records, in
row order. -/
def aggregateRows (today : Date) (period : String) (category : Option String)
    (rows : List (List String)) : ℚ × List Record :=
  let found := rows.filterMap (rowMatch today period category)
  ((found.map (fun r => r.price)).sum, found)

/-- Model of `spending_items.sort(key=lambda x: x['price'], reverse=True)`
(src/main.py line 128): Python's sort is stable, so this is the stable
descending-by-price sort, here as a stable insertion sort. -/
def insertByPrice (r : Record) : List Record → List Record
  | [] => [r]
  | x :: xs => if x.price ≤ r.price then r :: x :: xs else x :: insertByPrice r xs

/-- Stable sort of the matches by price descending (src/main.py line 128). -/
def sortSpending : List Record → List Record
  | [] => []
  | x :: xs => insertByPrice x (sortSpending xs)

/-- Model of the truncation step (src/main.py lines 130-131):
`if top_amount and top_amount < len(spending_items)` — note Python truthiness
makes `top_amount = 0` skip the truncation. -/
def truncateTop (top_amount : Option Nat) (items : List Record) : List Record :=
  match top_amount with
  | none => items
  | some n => if n ≠ 0 ∧ n < items.length then items.take n else items

/-- Two-digit zero padding for date formatting. -/
def pad2 (n : Nat) : String :=
  if n < 10 then "0" ++ toString n else toString n

/-- Four-digit zero padding for date formatting. -/
def pad4 (n : Nat) : String :=
  if n < 10 then "000" ++ toString n
  else if n < 100 then "00" ++ toString n
  else if n < 1000 then "0" ++ toString n
  else toString n

/-- Model of `date.strftime("%Y-%m-%d")`. -/
def formatDate (d : Date) : String :=
  pad4 d.year ++ "-" ++ pad2 d.month ++ "-" ++ pad2 d.day

/-- Rounding of `100 * num / den` to the nearest integer, ties to even, in
integer arithmetic: the rounding applied by `"%.2f"` formatting to the exact
value. -/
def roundCents (num : Int) (den : Nat) : Int :=
  let n := 100 * num
  let q := n.fdiv den
  let r := n - q * den
  if 2 * r < den then q
  else if (den : Int) < 2 * r then q + 1
  else if 2 ∣ q then q else q + 1

/-- Model of Python `f"{x:.2f}"` on the exact rational value. -/
def formatQ2 (x : ℚ) : String :=
  let n := roundCents x.num x.den
  let sgn := if n < 0 then "-" else ""
  let m := n.natAbs
  sgn ++ toString (m / 100) ++ "." ++ pad2 (m % 100)

/-- The `{f' in {category}' if category else ''}` fragment of the summary
messages (src/main.py lines 126 and 133). -/
def catSuffix : Option String → String
  | none => ""
  | some c => if c = "" then "" else " in " ++ c

/-- Pluralization of `day` in `f"{days_ago} day{'s' if days_ago != 1 else ''} ago"`. -/
def pluralS (n : Int) : String :=
  if n ≠ 1 then "s" else ""

/-- One summary line (src/main.py lines 134-137). -/
def renderLine (today : Date) (period : String) (divider : String) (r : Record) : String :=
  let dd :=
    if period = "day" then
      let daysAgo := today.toRD - r.date.toRD
      toString daysAgo ++ " day" ++ pluralS daysAgo ++ " ago"
    else formatDate r.date
  "- " ++ r.name ++ " (" ++ (if r.category = "" then "N/A" else r.category) ++ "): " ++
    formatQ2 r.price ++ divider ++ " (" ++ dd ++ ")\n"

/-- Model of `get_spending_summary` (src/main.py lines 74-140). The sheet
fetch is a parameter: `none` models `sheet.get_all_values()` raising, in
which case the function returns the degraded error message. -/
def getSpendingSummary (fetched : Option (List (List String))) (today : Date)
    (period : String) (category : Option String) (top_amount : Option Nat)
    (divider : String) : String :=
  match fetched with
  | none => "Error fetching data."
  | some rawData =>
    if rawData.length ≤ 1 then "No spending data available."
    else
      let res := aggregateRows today period category rawData.tail
      if res.2 = [] then
        "No spendings recorded for this " ++ period ++ catSuffix category ++ "."
      else
        let items := truncateTop top_amount (sortSpending res.2)
        "Spending for " ++ period ++ catSuffix category ++ ":\n" ++
          String.join (items.map (renderLine today period divider)) ++
          "\nTotal for " ++ period ++ ": " ++ formatQ2 res.1 ++ divider

/-- Stripped comma-tokens of one registry cell, as computed in all three
category operations (src/main.py lines 151, 169, 193). -/
def cellTokens (cell : String) : List String :=
  (splitOnChar ',' cell).map (fun t => trimStr t)

/-- The duplicate check of `add_category` (src/main.py line 151): the lowered
name equals some stripped, lowered token of some non-empty cell. -/
def isDuplicateCategory (name : String) (col : List String) : Bool :=
  ((col.filter (fun cell => decide (cell ≠ ""))).flatMap
      (fun cell => (splitOnChar ',' cell).map (fun t => lowerStr (trimStr t)))).contains
    (lowerStr name)

/-- The target row of `add_category` (src/main.py line 155):
`len(list(filter(None, sheet.col_values(5)))) + 1`, i.e. one past the COUNT of
non-empty cells (not one past the last non-empty position). -/
def nextCategoryRow (col : List String) : Nat :=
  (col.filter (fun cell => decide (cell ≠ ""))).length + 1

/-- Model of `add_category` (src/main.py lines 145-157) on the category
column: `none` is the duplicate no-op (user-visible message), `some r` means
the name is written into 1-based cell `r` of the column. -/
def addCategory (name : String) (col : List String) : Option Nat :=
  if isDuplicateCategory name col then none else some (nextCategoryRow col)

/-- The scan loop of `remove_category` (src/main.py lines 167-175), carrying
the 1-based index of the current cell. `list.remove` deletes the first
occurrence, modelled by `List.erase`. -/
def removeCategoryAux (name : String) : List String → Nat → Option (Nat × String)
  | [], _ => none
  | cell :: rest, i =>
    if cell ≠ "" ∧ (cellTokens cell).contains name then
      some (i, String.intercalate ", " ((cellTokens cell).erase name))
    else removeCategoryAux name rest (i + 1)

/-- Model of `remove_category` (src/main.py lines 160-179) on the category
column: `none` is the not-found path (no mutation), `some (i, v)` means cell
`i` (1-based) is overwritten with `v`. -/
def removeCategory (name : String) (col : List String) : Option (Nat × String) :=
  removeCategoryAux name col 1

/-- The scan loop of `edit_category` (src/main.py lines 191-199): the list
comprehension replaces EVERY occurrence of the old name in the first matching
cell. -/
def editCategoryAux (oldName newName : String) : List String → Nat → Option (Nat × String)
  | [], _ => none
  | cell :: rest, i =>
    if cell ≠ "" ∧ (cellTokens cell).contains oldName then
      some (i, String.intercalate ", "
        ((cellTokens cell).map (fun c => if c = oldName then newName else c)))
    else editCategoryAux oldName newName rest (i + 1)

/-- Model of `edit_category` (src/main.py lines 182-203) on the category
column. -/
def editCategory (oldName newName : String) (col : List String) : Option (Nat × String) :=
  editCategoryAux oldName newName col 1

/-- Spec-side formulation of `remove(name)` for comparison: the FIRST cell
(top to bottom) whose token list contains `name` exactly has that token's
first occurrence removed and the remainder rejoined with `", "`. -/
def removeCategorySpec (name : String) (col : List String) : Option (Nat × String) :=
  match col.findIdx? (fun cell => decide (cell ≠ "") && (cellTokens cell).contains name) with
  | none => none
  | some j => some (j + 1, String.intercalate ", " ((cellTokens (col.getD j "")).erase name))

/-- Spec-side formulation of `rename(old, new)` for comparison: in the first
cell containing `old`, every token equal to `old` is replaced by `new`. -/
def editCategorySpec (oldName newName : String) (col : List String) : Option (Nat × String) :=
  match col.findIdx? (fun cell => decide (cell ≠ "") && (cellTokens cell).contains oldName) with
  | none => none
  | some j => some (j + 1, String.intercalate ", "
      ((cellTokens (col.getD j "")).map (fun c => if c = oldName then newName else c)))


/-! ## Helper lemmas -/

lemma inPeriod_day (today d : Date) : inPeriod "day" today d = decide (d = today) := rfl

lemma categoryOk_none (c : String) : categoryOk none c = true := rfl

lemma rowMatch_day_none (today : Date) (row : List String) :
    rowMatch today "day" none row =
      match parseRow row with
      | none => none
      | some r => if r.date = today then some r else none := by
  unfold rowMatch
  cases parseRow row with
  | none => rfl
  | some r =>
    simp only [categoryOk_none, if_true, inPeriod_day]
    by_cases h : r.date = today
    · simp [h]
    · simp [h]

lemma filterMap_rowMatch_day (today : Date) (rows : List (List String)) :
    rows.filterMap (rowMatch today "day" none) =
      (rows.filterMap parseRow).filter (fun r => decide (r.date = today)) := by
  induction rows with
  | nil => rfl
  | cons row rest ih =>
    simp only [List.filterMap_cons]
    rw [rowMatch_day_none]
    cases h : parseRow row with
    | none => simpa using ih
    | some r =>
      by_cases hd : r.date = today
      · simp [hd, ih, List.filter_cons]
      · simp [hd, ih, List.filter_cons]

lemma rowMatch_eq_none_of_parseRow (today : Date) (period : String) (category : Option String)
    (row : List String) (h : parseRow row = none) :
    rowMatch today period category row = none := by
  unfold rowMatch
  rw [h]

/-! ## Claims -/

/-- C1: for every store snapshot, the day-period aggregate over the data rows
computes a total equal to the sum of the prices of the well-formed rows whose
date equals today, and its matches are exactly those rows — rows with any
other date contribute nothing and do not appear. -/
theorem claim_c1 (today : Date) (rows : List (List String)) :
    (aggregateRows today "day" none rows).1 =
      (((rows.filterMap parseRow).filter (fun r => decide (r.date = today))).map
        (fun r => r.price)).sum ∧
    (aggregateRows today "day" none rows).2 =
      (rows.filterMap parseRow).filter (fun r => decide (r.date = today)) := by
  constructor
  · show ((rows.filterMap (rowMatch today "day" none)).map (fun r => r.price)).sum = _
    rw [filterMap_rowMatch_day]
  · exact filterMap_rowMatch_day today rows

/-- C3 (amended): a raw row is skipped — excluded from the total and the
matches of every aggregate, never aborting the batch — exactly when it has
fewer than 5 fields, or its stripped date field does not parse under
`%Y-%m-%d`, or its stripped price field is not parseable as a decimal number
(the sign is NOT checked: a parseable negative price is accepted). -/
theorem claim_c3 (row : List String) (rest : List (List String)) (today : Date)
    (period : String) (category : Option String) :
    (parseRow row = none ↔
      (row.length < 5 ∨ parseDate (trimStr (row.getD 0 "")) = none ∨
        parsePrice (trimStr (row.getD 3 "")) = none)) ∧
    (parseRow row = none →
      aggregateRows today period category (row :: rest) =
        aggregateRows today period category rest) := by
  constructor
  · unfold parseRow
    by_cases h5 : row.length < 5
    · simp [h5]
    · simp only [h5, if_false, false_or]
      cases hd : parseDate (trimStr (row.getD 0 "")) with
      | none => simp
      | some d =>
        cases hp : parsePrice (trimStr (row.getD 3 "")) with
        | none => simp
        | some p => simp
  · intro h
    unfold aggregateRows
    rw [List.filterMap_cons, rowMatch_eq_none_of_parseRow today period category row h]

/-- Witness for C3: a row with an unparsable price is skipped and the
aggregate over a batch containing it equals the aggregate without it. -/
theorem claim_c3_witness :
    parseRow ["2024-01-01", "10:00", "Tea", "abc", "Drinks"] = none ∧
    aggregateRows ⟨2024, 1, 1⟩ "day" none [["2024-01-01", "10:00", "Tea", "abc", "Drinks"]] =
      aggregateRows ⟨2024, 1, 1⟩ "day" none [] :=
  ⟨by decide,
    (claim_c3 ["2024-01-01", "10:00", "Tea", "abc", "Drinks"] [] ⟨2024, 1, 1⟩ "day" none).2
      (by decide)⟩

/-- Counterexample to C3 as stated: the row
`["2024-01-01","10:00","Tea","-5","Drinks"]` has a price that is not a
non-negative decimal, yet it is NOT skipped — it parses to a record with
price `-5` and contributes `-5` to the day total on 2024-01-01. -/
theorem claim_c3_counterexample :
    parseRow ["2024-01-01", "10:00", "Tea", "-5", "Drinks"] =
      some ⟨"Tea", mkRat (-5) 1, "Drinks", ⟨2024, 1, 1⟩⟩ ∧
    (mkRat (-5) 1 < 0) ∧
    (aggregateRows ⟨2024, 1, 1⟩ "day" none
        [["2024-01-01", "10:00", "Tea", "-5", "Drinks"]]).1 = mkRat (-5) 1 := by
  refine ⟨by decide, by decide, ?_⟩
  have h2 : (aggregateRows ⟨2024, 1, 1⟩ "day" none
      [["2024-01-01", "10:00", "Tea", "-5", "Drinks"]]).2 =
      [⟨"Tea", mkRat (-5) 1, "Drinks", ⟨2024, 1, 1⟩⟩] := by decide
  have h1 : (aggregateRows ⟨2024, 1, 1⟩ "day" none
      [["2024-01-01", "10:00", "Tea", "-5", "Drinks"]]).1 =
      (((aggregateRows ⟨2024, 1, 1⟩ "day" none
        [["2024-01-01", "10:00", "Tea", "-5", "Drinks"]]).2).map (fun r => r.price)).sum := rfl
  rw [h1, h2]
  simp

/-- C4 (amended): when a NONZERO `top_n` is given and is smaller than the
match count, the summary keeps exactly the first `top_n` items after sorting;
when `top_n` is absent, zero (falsy in Python), or at least the match count,
all items are kept unchanged and no error occurs. -/
theorem claim_c4 (n : Nat) (items : List Record) :
    (0 < n → n < items.length → truncateTop (some n) items = items.take n) ∧
    (items.length ≤ n → truncateTop (some n) items = items) ∧
    truncateTop (some 0) items = items ∧
    truncateTop none items = items := by
  refine ⟨?_, ?_, ?_, rfl⟩
  · intro h0 hlt
    show (if n ≠ 0 ∧ n < items.length then items.take n else items) = items.take n
    rw [if_pos ⟨by omega, hlt⟩]
  · intro hge
    show (if n ≠ 0 ∧ n < items.length then items.take n else items) = items
    rw [if_neg (fun hc => absurd hc.2 (by omega))]
  · show (if (0 : Nat) ≠ 0 ∧ 0 < items.length then items.take 0 else items) = items
    rw [if_neg (fun hc => absurd hc.1 (by simp))]

/-- Witness for C4: with two matches, `top_n = 1` truncates to the first item
after sorting and `top_n = 5` returns all matches unchanged. -/
theorem claim_c4_witness :
    truncateTop (some 1)
        [⟨"a", 2, "", ⟨2024, 1, 1⟩⟩, ⟨"b", 1, "", ⟨2024, 1, 1⟩⟩] =
      ([⟨"a", 2, "", ⟨2024, 1, 1⟩⟩, ⟨"b", 1, "", ⟨2024, 1, 1⟩⟩] : List Record).take 1 ∧
    truncateTop (some 5)
        [⟨"a", 2, "", ⟨2024, 1, 1⟩⟩, ⟨"b", 1, "", ⟨2024, 1, 1⟩⟩] =
      [⟨"a", 2, "", ⟨2024, 1, 1⟩⟩, ⟨"b", 1, "", ⟨2024, 1, 1⟩⟩] :=
  ⟨(claim_c4 1 _).1 (by decide) (by decide), (claim_c4 5 _).2.1 (by decide)⟩

/-- Counterexample to C4 as stated: `top_n = 0` is smaller than a match count
of 2, yet the truncation returns both matches instead of the first 0. -/
theorem claim_c4_counterexample :
    0 < ([⟨"a", 2, "", ⟨2024, 1, 1⟩⟩, ⟨"b", 1, "", ⟨2024, 1, 1⟩⟩] : List Record).length ∧
    truncateTop (some 0)
        [⟨"a", 2, "", ⟨2024, 1, 1⟩⟩, ⟨"b", 1, "", ⟨2024, 1, 1⟩⟩] ≠
      ([⟨"a", 2, "", ⟨2024, 1, 1⟩⟩, ⟨"b", 1, "", ⟨2024, 1, 1⟩⟩] : List Record).take 0 := by
  decide


lemma mem_insertByPrice (r a : Record) : ∀ l : List Record,
    a ∈ insertByPrice r l ↔ a = r ∨ a ∈ l := by
  intro l
  induction l with
  | nil => simp [insertByPrice]
  | cons x xs ih =>
    unfold insertByPrice
    by_cases h : x.price ≤ r.price
    · simp [h]
    · simp only [h, if_false, List.mem_cons, ih]
      tauto

lemma pairwise_insertByPrice (r : Record) : ∀ l : List Record,
    l.Pairwise (fun a b => b.price ≤ a.price) →
    (insertByPrice r l).Pairwise (fun a b => b.price ≤ a.price) := by
  intro l
  induction l with
  | nil => simp [insertByPrice]
  | cons x xs ih =>
    intro hp
    rcases List.pairwise_cons.mp hp with ⟨hx, hxs⟩
    unfold insertByPrice
    by_cases h : x.price ≤ r.price
    · rw [if_pos h]
      refine List.pairwise_cons.mpr ⟨?_, hp⟩
      intro b hb
      rcases List.mem_cons.mp hb with rfl | hb
      · exact h
      · exact le_trans (hx b hb) h
    · rw [if_neg h]
      refine List.pairwise_cons.mpr ⟨?_, ih hxs⟩
      intro b hb
      rcases (mem_insertByPrice r b xs).mp hb with rfl | hb
      · exact le_of_lt (lt_of_not_le h)
      · exact hx b hb

lemma sortSpending_pairwise : ∀ l : List Record,
    (sortSpending l).Pairwise (fun a b => b.price ≤ a.price) := by
  intro l
  induction l with
  | nil => simp [sortSpending]
  | cons x xs ih => exact pairwise_insertByPrice x (sortSpending xs) ih

lemma filter_price_insertByPrice (pr : ℚ) (r : Record) : ∀ l : List Record,
    (insertByPrice r l).filter (fun x => decide (x.price = pr)) =
      (r :: l).filter (fun x => decide (x.price = pr)) := by
  intro l
  induction l with
  | nil => rfl
  | cons x xs ih =>
    unfold insertByPrice
    by_cases h : x.price ≤ r.price
    · rw [if_pos h]
    · rw [if_neg h]
      by_cases hr : r.price = pr
      · have hx : ¬ x.price = pr := fun hxp => h (by rw [hxp, hr])
        simp [List.filter_cons, hr, hx] at ih ⊢
        rw [ih]
      · by_cases hx : x.price = pr
        · simp [List.filter_cons, hr, hx] at ih ⊢
          rw [ih]
        · simp [List.filter_cons, hr, hx] at ih ⊢
          rw [ih]

lemma sortSpending_filter_price (pr : ℚ) : ∀ l : List Record,
    (sortSpending l).filter (fun x => decide (x.price = pr)) =
      l.filter (fun x => decide (x.price = pr)) := by
  intro l
  induction l with
  | nil => rfl
  | cons x xs ih =>
    show (insertByPrice x (sortSpending xs)).filter (fun x => decide (x.price = pr)) = _
    rw [filter_price_insertByPrice]
    by_cases hx : x.price = pr
    · simp [List.filter_cons, hx, ih]
    · simp [List.filter_cons, hx, ih]

/-- C5: the ranking sorts by price descending (every later item's price is at
most every earlier one's) and is stable: for each price, the sub-sequence of
items carrying that price is unchanged, so ties keep original row order. On
prices `[5, 20, 20, 3]` in row order the result is `[20(row2), 20(row3), 5, 3]`. -/
theorem claim_c5 :
    (∀ l : List Record, (sortSpending l).Pairwise (fun a b => b.price ≤ a.price)) ∧
    (∀ (l : List Record) (pr : ℚ),
      (sortSpending l).filter (fun x => decide (x.price = pr)) =
        l.filter (fun x => decide (x.price = pr))) ∧
    sortSpending
        [⟨"r1", 5, "", ⟨2024, 1, 1⟩⟩, ⟨"r2", 20, "", ⟨2024, 1, 1⟩⟩,
         ⟨"r3", 20, "", ⟨2024, 1, 1⟩⟩, ⟨"r4", 3, "", ⟨2024, 1, 1⟩⟩] =
      [⟨"r2", 20, "", ⟨2024, 1, 1⟩⟩, ⟨"r3", 20, "", ⟨2024, 1, 1⟩⟩,
       ⟨"r1", 5, "", ⟨2024, 1, 1⟩⟩, ⟨"r4", 3, "", ⟨2024, 1, 1⟩⟩] :=
  ⟨sortSpending_pairwise, fun l pr => sortSpending_filter_price pr l, by decide⟩


/-- C6: for a provided (non-empty, hence truthy) requested category, a row's
category field passes the filter iff the request case-insensitively equals at
least one comma-split, whitespace-trimmed token of the field. -/
theorem claim_c6 (c rowCat : String) (h : c ≠ "") :
    categoryOk (some c) rowCat = true ↔
      ∃ t ∈ splitOnChar ',' rowCat, lowerStr (trimStr t) = lowerStr c := by
  show (if c = "" then true
    else ((splitOnChar ',' rowCat).map (fun t => lowerStr (trimStr t))).contains
      (lowerStr c)) = true ↔ _
  rw [if_neg h]
  show List.elem (lowerStr c) _ = true ↔ _
  rw [List.elem_iff, List.mem_map]

/-- Witness for C6: the row category field `"Food, Drinks"` matches a request
for `"drinks"`, via its token `" Drinks"`. -/
theorem claim_c6_witness :
    ("drinks" : String) ≠ "" ∧ categoryOk (some "drinks") "Food, Drinks" = true :=
  ⟨by decide,
    (claim_c6 "drinks" "Food, Drinks" (by decide)).mpr ⟨" Drinks", by decide, by decide⟩⟩

/-- C8: `get_spending_summary` always returns a text response: a failing
store read yields the distinct degraded message "Error fetching data.", an
empty (or header-only) snapshot yields the no-data response, and a snapshot
whose data rows produce no matches yields the no-spendings response — none of
these propagate an error. -/
lemma getSpendingSummary_some_eq (today : Date) (period : String)
    (category : Option String) (top_amount : Option Nat) (divider : String)
    (raw : List (List String)) :
    getSpendingSummary (some raw) today period category top_amount divider =
      if raw.length ≤ 1 then "No spending data available."
      else if (aggregateRows today period category raw.tail).2 = [] then
        "No spendings recorded for this " ++ period ++ catSuffix category ++ "."
      else
        "Spending for " ++ period ++ catSuffix category ++ ":\n" ++
          String.join ((truncateTop top_amount (sortSpending
            (aggregateRows today period category raw.tail).2)).map
              (renderLine today period divider)) ++
          "\nTotal for " ++ period ++ ": " ++
          formatQ2 (aggregateRows today period category raw.tail).1 ++ divider := rfl

theorem claim_c8 (today : Date) (period : String) (category : Option String)
    (top_amount : Option Nat) (divider : String) (raw : List (List String)) :
    getSpendingSummary none today period category top_amount divider =
      "Error fetching data." ∧
    (raw.length ≤ 1 →
      getSpendingSummary (some raw) today period category top_amount divider =
        "No spending data available.") ∧
    (1 < raw.length → (aggregateRows today period category raw.tail).2 = [] →
      getSpendingSummary (some raw) today period category top_amount divider =
        "No spendings recorded for this " ++ period ++ catSuffix category ++ ".") ∧
    getSpendingSummary none today period category top_amount divider ≠
      getSpendingSummary (some []) today period category top_amount divider := by
  refine ⟨rfl, ?_, ?_, ?_⟩
  · intro h
    rw [getSpendingSummary_some_eq, if_pos h]
  · intro hlen hemp
    rw [getSpendingSummary_some_eq, if_neg (by omega), if_pos hemp]
  · intro he
    have h1 : getSpendingSummary none today period category top_amount divider =
        "Error fetching data." := rfl
    have h2 : getSpendingSummary (some []) today period category top_amount divider =
        "No spending data available." := rfl
    rw [h1, h2] at he
    exact absurd he (by decide)

/-- Witness for C8: concrete empty and no-match snapshots produce the no-data
and no-spendings responses. -/
theorem claim_c8_witness :
    getSpendingSummary (some []) ⟨2024, 1, 1⟩ "day" none none "$" =
      "No spending data available." ∧
    getSpendingSummary (some [["header"], ["oops"]]) ⟨2024, 1, 1⟩ "day" none none "$" =
      "No spendings recorded for this " ++ "day" ++ catSuffix none ++ "." :=
  ⟨(claim_c8 ⟨2024, 1, 1⟩ "day" none none "$" []).2.1 (by decide),
    (claim_c8 ⟨2024, 1, 1⟩ "day" none none "$" [["header"], ["oops"]]).2.2.1
      (by decide) (by decide)⟩

/-- C9: the first snapshot row is unconditionally treated as a header: the
summary of a snapshot never depends on its first row (even a well-formed
expense row with today's date there contributes nothing), and a snapshot
consisting of exactly one row yields the no-data response. -/
theorem claim_c9 (r r' : List String) (rest : List (List String)) (today : Date)
    (period : String) (category : Option String) (top_amount : Option Nat)
    (divider : String) :
    getSpendingSummary (some [r]) today period category top_amount divider =
      "No spending data available." ∧
    getSpendingSummary (some (r :: rest)) today period category top_amount divider =
      getSpendingSummary (some (r' :: rest)) today period category top_amount divider := by
  constructor
  · rfl
  · cases rest with
    | nil => rfl
    | cons x xs => rfl

/-- C2 evaluated at the failing input: the duplicate check is case-insensitive
as claimed, but on the column `["", "Drinks"]` (an interior blank cell, as
`remove` leaves behind) adding the fresh name `"Tea"` writes to row
`(count of non-empty cells) + 1 = 2`, whose cell `"Drinks"` is non-empty —
the name is NOT placed after the last non-empty cell and an existing entry is
overwritten. -/
theorem claim_c2_eval :
    addCategory "food" ["Food"] = none ∧
    addCategory "Food" ["Drinks"] = some 2 ∧
    addCategory "Tea" ["", "Drinks"] = some 2 ∧
    (["", "Drinks"] : List String).getD 1 "" = "Drinks" ∧ ("Drinks" : String) ≠ "" := by
  decide


lemma removeCategoryAux_eq (name : String) : ∀ (col : List String) (i : Nat),
    removeCategoryAux name col i =
      match col.findIdx? (fun cell => decide (cell ≠ "") && (cellTokens cell).contains name) with
      | none => none
      | some j => some (i + j,
          String.intercalate ", " ((cellTokens (col.getD j "")).erase name)) := by
  intro col
  induction col with
  | nil => intro i; rfl
  | cons cell rest ih =>
    intro i
    by_cases hc : cell ≠ "" ∧ (cellTokens cell).contains name
    · have hp : (decide (cell ≠ "") && (cellTokens cell).contains name) = true := by
        rw [Bool.and_eq_true]
        exact ⟨decide_eq_true hc.1, hc.2⟩
      unfold removeCategoryAux
      rw [if_pos hc]
      simp only [List.findIdx?_cons, hp, if_true]
      simp
    · have hp : (decide (cell ≠ "") && (cellTokens cell).contains name) = false := by
        rcases not_and_or.mp hc with h1 | h2
        · simp [not_not.mp h1]
        · simp only [Bool.and_eq_false_iff]
          right
          exact Bool.not_eq_true _ |>.mp h2
      unfold removeCategoryAux
      rw [if_neg hc]
      rw [ih (i + 1)]
      simp only [List.findIdx?_cons, hp, Bool.false_eq_true, if_false, List.findIdx?_succ]
      cases hf : rest.findIdx?
          (fun cell => decide (cell ≠ "") && (cellTokens cell).contains name) with
      | none => rfl
      | some j =>
        simp only [Option.map_some']
        rw [List.getD_cons_succ]
        congr 2
        omega

lemma editCategoryAux_eq (oldName newName : String) : ∀ (col : List String) (i : Nat),
    editCategoryAux oldName newName col i =
      match col.findIdx? (fun cell => decide (cell ≠ "") && (cellTokens cell).contains oldName) with
      | none => none
      | some j => some (i + j, String.intercalate ", "
          ((cellTokens (col.getD j "")).map (fun c => if c = oldName then newName else c))) := by
  intro col
  induction col with
  | nil => intro i; rfl
  | cons cell rest ih =>
    intro i
    by_cases hc : cell ≠ "" ∧ (cellTokens cell).contains oldName
    · have hp : (decide (cell ≠ "") && (cellTokens cell).contains oldName) = true := by
        rw [Bool.and_eq_true]
        exact ⟨decide_eq_true hc.1, hc.2⟩
      unfold editCategoryAux
      rw [if_pos hc]
      simp only [List.findIdx?_cons, hp, if_true]
      simp
    · have hp : (decide (cell ≠ "") && (cellTokens cell).contains oldName) = false := by
        rcases not_and_or.mp hc with h1 | h2
        · simp [not_not.mp h1]
        · simp only [Bool.and_eq_false_iff]
          right
          exact Bool.not_eq_true _ |>.mp h2
      unfold editCategoryAux
      rw [if_neg hc]
      rw [ih (i + 1)]
      simp only [List.findIdx?_cons, hp, Bool.false_eq_true, if_false, List.findIdx?_succ]
      cases hf : rest.findIdx?
          (fun cell => decide (cell ≠ "") && (cellTokens cell).contains oldName) with
      | none => rfl
      | some j =>
        simp only [Option.map_some']
        rw [List.getD_cons_succ]
        congr 2
        omega

/-- C7: `remove(name)` equals its specification — scan cells top to bottom,
rewrite the FIRST cell whose stripped comma-token list contains `name`
exactly (case-sensitively) to the `", "`-join of the token list with that
token removed — and it returns the no-mutation not-found result iff no
non-empty cell's token list contains `name`. On cell `"Food, Drinks"`,
removing `"Food"` leaves `"Drinks"`, and removing the absent `"Snacks"` is
not-found. -/
theorem claim_c7 (name : String) (col : List String) :
    removeCategory name col = removeCategorySpec name col ∧
    (removeCategory name col = none ↔
      ∀ cell ∈ col, cell = "" ∨ (cellTokens cell).contains name = false) ∧
    removeCategory "Food" ["Food, Drinks"] = some (1, "Drinks") ∧
    removeCategory "Snacks" ["Food, Drinks"] = none := by
  have h := removeCategoryAux_eq name col 1
  refine ⟨?_, ?_, by decide, by decide⟩
  · show removeCategoryAux name col 1 = removeCategorySpec name col
    rw [h]
    unfold removeCategorySpec
    cases hf : col.findIdx?
        (fun cell => decide (cell ≠ "") && (cellTokens cell).contains name) with
    | none => rfl
    | some j =>
      show some (1 + j, String.intercalate ", " ((cellTokens (col.getD j "")).erase name)) =
        some (j + 1, String.intercalate ", " ((cellTokens (col.getD j "")).erase name))
      rw [Nat.add_comm]
  · show removeCategoryAux name col 1 = none ↔ _
    rw [h]
    cases hf : col.findIdx?
        (fun cell => decide (cell ≠ "") && (cellTokens cell).contains name) with
    | none =>
      simp only [true_iff]
      intro cell hcell
      have := List.findIdx?_eq_none_iff.mp hf cell hcell
      rcases Bool.and_eq_false_iff.mp this with h1 | h2
      · left
        simpa using h1
      · right
        simpa using h2
    | some j =>
      rcases List.findIdx?_eq_some_iff_getElem.mp hf with ⟨hlt, hpj, -⟩
      constructor
      · intro hx
        exact absurd hx (by simp)
      · intro hall
        exfalso
        rw [Bool.and_eq_true] at hpj
        rcases hpj with ⟨h1, h2⟩
        rcases hall (col[j]) (col.getElem_mem hlt) with he | hcf
        · exact (of_decide_eq_true h1) he
        · rw [h2] at hcf
          exact absurd hcf (by decide)

/-- C10: within the first matching cell, `remove` and `rename` differ on
duplicated tokens: `rename` equals the spec that replaces EVERY occurrence of
the old name in that cell's token list, while `remove` deletes only the first
occurrence — on cell `"Food, Drinks, Food"`, `remove("Food")` yields
`"Drinks, Food"` but `rename("Food","Snacks")` yields
`"Snacks, Drinks, Snacks"`; on `"Food, Drinks"`, `rename("Food","Groceries")`
yields `"Groceries, Drinks"`. -/
theorem claim_c10 :
    (∀ oldName newName col, editCategory oldName newName col =
      editCategorySpec oldName newName col) ∧
    removeCategory "Food" ["Food, Drinks, Food"] = some (1, "Drinks, Food") ∧
    editCategory "Food" "Snacks" ["Food, Drinks, Food"] =
      some (1, "Snacks, Drinks, Snacks") ∧
    editCategory "Food" "Groceries" ["Food, Drinks"] = some (1, "Groceries, Drinks") := by
  refine ⟨?_, by decide, by decide, by decide⟩
  intro oldName newName col
  show editCategoryAux oldName newName col 1 = editCategorySpec oldName newName col
  rw [editCategoryAux_eq]
  unfold editCategorySpec
  cases hf : col.findIdx?
      (fun cell => decide (cell ≠ "") && (cellTokens cell).contains oldName) with
  | none => rfl
  | some j =>
    show some (1 + j, String.intercalate ", "
        ((cellTokens (col.getD j "")).map (fun c => if c = oldName then newName else c))) =
      some (j + 1, String.intercalate ", "
        ((cellTokens (col.getD j "")).map (fun c => if c = oldName then newName else c)))
    rw [Nat.add_comm]

end Budget
